import Mathlib

/-!
Verification of the Synaptic MA-crossover + RSI backtest against its
specification.  The definitions below are a shallow embedding of the
fallback CSV backtest `fallback_backtest_csv` in `run_backtest_FIXED.py`
(the authoritative self-contained simulation path) together with the
crossover detector shared with `ma_cross_rsi_strategy.py`.

Modelling conventions:
- prices, balances and indicator values are rationals (`ℚ`), standing for
  the Python floats; all fee and threshold constants are exact rationals;
- a pandas `NaN` close (a missing/NaN `close` field of an input row) is
  modelled as `Option.none`; other bar fields are taken as finite reals,
  as required by the data model.  NaN never arises from the arithmetic
  itself on such inputs, only from missing data or unfilled warm-up
  windows, so `Option` propagation mirrors pandas NaN propagation exactly
  on the columns the program inspects with `pd.isna`;
- `list.getD i default` stands for `df.iloc[i]`; the loop only reads
  indices that are in range, so the junk default is never observable.
-/

namespace Backtest

/-- Side of an open position, `position['side']` in the source. -/
inductive PosSide
  | LONG
  | SHORT
deriving DecidableEq, Repr

/-- Side of an executed fill, the `'side'` key of a fills row. -/
inductive OrdSide
  | BUY
  | SELL
deriving DecidableEq, Repr

/-- One OHLCV row of the input file.  `close` is `none` when the field is
missing/NaN; the other fields are finite numbers per the data model. -/
structure Bar where
  timestamp : Int
  open_ : ℚ
  high : ℚ
  low : ℚ
  close : Option ℚ
  volume : ℚ
deriving DecidableEq, Repr

instance : Inhabited Bar := ⟨⟨0, 0, 0, 0, none, 0⟩⟩

/-- Row access, `df.iloc[i]`.  Out-of-range access returns the default bar
(whose close is `none`); the simulation loop never reads out of range. -/
def barAt (bars : List Bar) (i : ℕ) : Bar := bars.getD i default

/-- Open price of bar `i`, `df.iloc[i]['open']`. -/
def openOf (bars : List Bar) (i : ℕ) : ℚ := (barAt bars i).open_

/-- Timestamp of bar `i`, `df.iloc[i]['timestamp']`. -/
def tsOf (bars : List Bar) (i : ℕ) : Int := (barAt bars i).timestamp

/-- Close price of bar `i`, `df.iloc[i]['close']` (`none` = NaN). -/
def closeOf (bars : List Bar) (i : ℕ) : Option ℚ := (barAt bars i).close

/-- The `1e-10` guard added to the average loss before division. -/
def eps : ℚ := 1 / 10000000000

/-- The flat commission rate, `0.0001` (one basis point). -/
def feeRate : ℚ := 1 / 10000

/-- Starting capital, `100000.0`. -/
def startingBalance : ℚ := 100000

/-- Rolling arithmetic mean of the last `w` closes ending at bar `i`,
`df['close'].rolling(window=w).mean()` evaluated at row `i`: `none`
(NaN) until `w` rows exist or when any close in the window is NaN. -/
def rollingMeanClose (bars : List Bar) (w i : ℕ) : Option ℚ :=
  if w ≤ i + 1 then
    let cs := (List.range w).map (fun k => closeOf bars (i - k))
    if cs.all Option.isSome then
      some ((cs.map (fun c => c.getD 0)).sum / (w : ℚ))
    else none
  else none

/-- The fast moving average column, `df['fast_ma']` (window 20). -/
def fast_ma (bars : List Bar) (i : ℕ) : Option ℚ := rollingMeanClose bars 20 i

/-- The slow moving average column, `df['slow_ma']` (window 50). -/
def slow_ma (bars : List Bar) (i : ℕ) : Option ℚ := rollingMeanClose bars 50 i

/-- The close-to-close difference column, `df['close'].diff()`. -/
def price_diff (bars : List Bar) (i : ℕ) : Option ℚ :=
  if i = 0 then none
  else
    match closeOf bars i, closeOf bars (i - 1) with
    | some a, some b => some (a - b)
    | _, _ => none

/-- The gain column, `price_diff.apply(lambda x: x if x > 0 else 0)`.
Note the Python comparison `NaN > 0` is `False`, so a NaN difference
yields `0`, not NaN — mirrored by the `none` branch. -/
def gain (bars : List Bar) (i : ℕ) : ℚ :=
  match price_diff bars i with
  | some d => if 0 < d then d else 0
  | none => 0

/-- The loss column, `price_diff.apply(lambda x: -x if x < 0 else 0)`. -/
def loss (bars : List Bar) (i : ℕ) : ℚ :=
  match price_diff bars i with
  | some d => if d < 0 then -d else 0
  | none => 0

/-- The rolling mean of the last 14 gains, `df['gain'].rolling(14).mean()`.
The gain column itself is never NaN, so only the warm-up rows are `none`. -/
def avg_gain (bars : List Bar) (i : ℕ) : Option ℚ :=
  if 13 ≤ i then some (((List.range 14).map (fun k => gain bars (i - k))).sum / 14)
  else none

/-- The rolling mean of the last 14 losses. -/
def avg_loss (bars : List Bar) (i : ℕ) : Option ℚ :=
  if 13 ≤ i then some (((List.range 14).map (fun k => loss bars (i - k))).sum / 14)
  else none

/-- The RSI column: `rs = avg_gain / (avg_loss + 1e-10)`,
`rsi = 100 - 100 / (1 + rs)`. -/
def rsi (bars : List Bar) (i : ℕ) : Option ℚ :=
  match avg_gain bars i, avg_loss bars i with
  | some g, some l => some (100 - 100 / (1 + g / (l + eps)))
  | _, _ => none

/-- Signal classification of a bar, derived from the current and previous
indicator snapshots. -/
inductive Signal
  | noSignal
  | bullishCross
  | bearishCross
deriving DecidableEq, Repr

/-- The crossover detector: the two branch conditions of the per-bar
`if`/`elif` in the source (`prev_fast_ma <= prev_slow_ma and fast_ma >
slow_ma and rsi < 70`, then `prev_fast_ma >= prev_slow_ma and fast_ma <
slow_ma and rsi > 30`), evaluated on NaN-free values. -/
def detect (prev_fast_ma prev_slow_ma fast_ma_v slow_ma_v rsi_v : ℚ) : Signal :=
  if prev_fast_ma ≤ prev_slow_ma ∧ slow_ma_v < fast_ma_v ∧ rsi_v < 70 then .bullishCross
  else if prev_slow_ma ≤ prev_fast_ma ∧ fast_ma_v < slow_ma_v ∧ 30 < rsi_v then .bearishCross
  else .noSignal

/-- The live position dictionary of the source, including the `entry_idx`
field the source stores (`'entry_idx': i + 1`). -/
structure Position where
  side : PosSide
  entry_price : ℚ
  entry_timestamp : Int
  entry_idx : ℕ
deriving DecidableEq, Repr

/-- One row of the fills ledger. -/
structure Fill where
  timestamp : Int
  instrument : String
  side : OrdSide
  quantity : ℚ
  price : ℚ
  commission : ℚ
deriving DecidableEq, Repr

/-- One row of the closed-trades ledger (`positions.append` in the source). -/
structure ClosedTrade where
  entry_time : Int
  exit_time : Int
  side : PosSide
  quantity : ℚ
  entry_price : ℚ
  exit_price : ℚ
  pnl : ℚ
deriving DecidableEq, Repr

instance : Inhabited ClosedTrade := ⟨⟨0, 0, .LONG, 0, 0, 0, 0⟩⟩

/-- The mutable simulator state: the single position slot and the running
balance. -/
structure SimState where
  position : Option Position
  current_balance : ℚ
deriving DecidableEq, Repr

/-- Output of a close/open action group: new state plus emitted ledger rows. -/
structure ActOut where
  state : SimState
  fills : List Fill
  trades : List ClosedTrade
deriving DecidableEq, Repr

/-- Output of an open action: new state plus emitted fills. -/
structure OpenOut where
  state : SimState
  fills : List Fill
deriving DecidableEq, Repr

/-- Close an existing short position at bar `i+1`'s open
(`if position and position['side'] == 'SHORT':` inside the BUY branch). -/
def closeShort (bars : List Bar) (st : SimState) (i : ℕ) : ActOut :=
  match st.position with
  | some p =>
    if p.side = .SHORT then
      let exit_price := openOf bars (i + 1)
      let pnl := (p.entry_price - exit_price) * 1
      let fees := exit_price * feeRate * 1
      let net_pnl := pnl - fees
      { state := ⟨none, st.current_balance + net_pnl⟩
        fills := [⟨tsOf bars (i + 1), "TEST.SIM", .BUY, 1, exit_price, fees⟩]
        trades := [⟨p.entry_timestamp, tsOf bars (i + 1), .SHORT, 1,
                    p.entry_price, exit_price, net_pnl⟩] }
    else ⟨st, [], []⟩
  | none => ⟨st, [], []⟩

/-- Close an existing long position at bar `i+1`'s open
(`if position and position['side'] == 'LONG':` inside the SELL branch). -/
def closeLong (bars : List Bar) (st : SimState) (i : ℕ) : ActOut :=
  match st.position with
  | some p =>
    if p.side = .LONG then
      let exit_price := openOf bars (i + 1)
      let pnl := (exit_price - p.entry_price) * 1
      let fees := exit_price * feeRate * 1
      let net_pnl := pnl - fees
      { state := ⟨none, st.current_balance + net_pnl⟩
        fills := [⟨tsOf bars (i + 1), "TEST.SIM", .SELL, 1, exit_price, fees⟩]
        trades := [⟨p.entry_timestamp, tsOf bars (i + 1), .LONG, 1,
                    p.entry_price, exit_price, net_pnl⟩] }
    else ⟨st, [], []⟩
  | none => ⟨st, [], []⟩

/-- Open a long position at bar `i+1`'s open when flat
(`if not position:` inside the BUY branch). -/
def openLong (bars : List Bar) (st : SimState) (i : ℕ) : OpenOut :=
  match st.position with
  | some _ => ⟨st, []⟩
  | none =>
    let entry_price := openOf bars (i + 1)
    let fees := entry_price * feeRate * 1
    { state := ⟨some ⟨.LONG, entry_price, tsOf bars (i + 1), i + 1⟩,
                st.current_balance - fees⟩
      fills := [⟨tsOf bars (i + 1), "TEST.SIM", .BUY, 1, entry_price, fees⟩] }

/-- Open a short position at bar `i+1`'s open when flat
(`if not position:` inside the SELL branch). -/
def openShort (bars : List Bar) (st : SimState) (i : ℕ) : OpenOut :=
  match st.position with
  | some _ => ⟨st, []⟩
  | none =>
    let entry_price := openOf bars (i + 1)
    let fees := entry_price * feeRate * 1
    { state := ⟨some ⟨.SHORT, entry_price, tsOf bars (i + 1), i + 1⟩,
                st.current_balance - fees⟩
      fills := [⟨tsOf bars (i + 1), "TEST.SIM", .SELL, 1, entry_price, fees⟩] }

/-- Apply the detected signal at bar `i`: the body of the BUY branch
(close short, then open long if flat), of the SELL branch (close long,
then open short if flat), or nothing. -/
def applySignal (bars : List Bar) (st : SimState) (i : ℕ) (sig : Signal) : ActOut :=
  match sig with
  | .bullishCross =>
    let a := closeShort bars st i
    let b := openLong bars a.state i
    ⟨b.state, a.fills ++ b.fills, a.trades⟩
  | .bearishCross =>
    let a := closeLong bars st i
    let b := openShort bars a.state i
    ⟨b.state, a.fills ++ b.fills, a.trades⟩
  | .noSignal => ⟨st, [], []⟩

/-- The five indicator reads of one loop iteration; `none` exactly when
one of the two `pd.isna` guards fires (NaN current fast/slow/rsi or NaN
previous fast/slow). -/
def indicatorsAt (bars : List Bar) (i : ℕ) : Option (ℚ × ℚ × ℚ × ℚ × ℚ) :=
  match fast_ma bars i, slow_ma bars i, rsi bars i,
        fast_ma bars (i - 1), slow_ma bars (i - 1) with
  | some f, some s, some r, some pf, some ps => some (f, s, r, pf, ps)
  | _, _, _, _, _ => none

/-- A bar in the evaluation range is skipped (`continue`) when an
indicator it needs is NaN. -/
def skipped (bars : List Bar) (i : ℕ) : Prop := indicatorsAt bars i = none

instance (bars : List Bar) (i : ℕ) : Decidable (skipped bars i) := by
  unfold skipped; infer_instance

/-- Output of one loop iteration: new state, emitted ledger rows, and the
equity points appended (`equity.append(current_balance)` runs once per
non-skipped iteration, after the signal handling). -/
structure StepOut where
  state : SimState
  fills : List Fill
  trades : List ClosedTrade
  eq : List ℚ
deriving DecidableEq, Repr

/-- One iteration of the main loop at bar index `i`. -/
def processBar (bars : List Bar) (st : SimState) (i : ℕ) : StepOut :=
  match indicatorsAt bars i with
  | some (f, s, r, pf, ps) =>
    let a := applySignal bars st i (detect pf ps f s r)
    ⟨a.state, a.fills, a.trades, [a.state.current_balance]⟩
  | none => ⟨st, [], [], []⟩

/-- The signal the detector assigns to bar `i` (`noSignal` for skipped
bars, which are never compared). -/
def signalAt (bars : List Bar) (i : ℕ) : Signal :=
  match indicatorsAt bars i with
  | some (f, s, r, pf, ps) => detect pf ps f s r
  | none => .noSignal

/-- Accumulated result of the main loop. -/
structure RunAcc where
  state : SimState
  fills : List Fill
  trades : List ClosedTrade
  eq : List ℚ
deriving DecidableEq, Repr

/-- Fold step of the main loop: run one iteration, append its output. -/
def stepFn (bars : List Bar) (acc : RunAcc) (i : ℕ) : RunAcc :=
  let o := processBar bars acc.state i
  ⟨o.state, acc.fills ++ o.fills, acc.trades ++ o.trades, acc.eq ++ o.eq⟩

/-- State before the loop: flat, starting balance, empty ledgers, and the
initial equity point `equity = [100000.0]`. -/
def initAcc : RunAcc := ⟨⟨none, startingBalance⟩, [], [], [startingBalance]⟩

/-- The first `m` iterations of the loop, i.e. bar indices `50..50+m-1`. -/
def runUpTo (bars : List Bar) (m : ℕ) : RunAcc :=
  (List.range' 50 m).foldl (stepFn bars) initAcc

/-- The whole main loop, `for i in range(50, len(df) - 1)`. -/
def runBars (bars : List Bar) : RunAcc := runUpTo bars (bars.length - 51)

/-- Outputs of a backtest run. -/
structure BacktestResult where
  fills : List Fill
  positions : List ClosedTrade
  equity : List ℚ
  equity_timestamps : List Int
  final_balance : ℚ
deriving DecidableEq, Repr

/-- The end-of-stream forced closure (`if position:` after the loop):
close at the final bar's close, append one ClosedTrade, no Fill, no
equity point.  A NaN final close (never exercised by the claims, which
presuppose a numeric close) is read as the junk value `0` where Python
would propagate NaN. -/
def terminalClose (bars : List Bar) (st : SimState) : List ClosedTrade × ℚ :=
  match st.position with
  | some p =>
    let exit_price := (closeOf bars (bars.length - 1)).getD 0
    let pnl := if p.side = .LONG then (exit_price - p.entry_price) * 1
               else (p.entry_price - exit_price) * 1
    let fees := exit_price * feeRate * 1
    let net_pnl := pnl - fees
    ([⟨p.entry_timestamp, tsOf bars (bars.length - 1), p.side, 1,
       p.entry_price, exit_price, net_pnl⟩], st.current_balance + net_pnl)
  | none => ([], st.current_balance)

/-- The whole fallback backtest: main loop, forced terminal closure, and
the equity-curve timestamp column
`[df.iloc[i]['timestamp'] for i in range(50, 50 + len(equity))]`. -/
def fallback_backtest_csv (bars : List Bar) : BacktestResult :=
  let r := runBars bars
  let t := terminalClose bars r.state
  { fills := r.fills
    positions := r.trades ++ t.1
    equity := r.eq
    equity_timestamps := (List.range' 50 r.eq.length).map (tsOf bars)
    final_balance := t.2 }

/-- Number of non-skipped iterations among the first `m` loop indices. -/
def evalCountUpTo (bars : List Bar) (m : ℕ) : ℕ :=
  ((List.range' 50 m).filter (fun i => !(indicatorsAt bars i).isNone)).length

/-- Number of non-skipped iterations of the whole loop. -/
def evalCount (bars : List Bar) : ℕ := evalCountUpTo bars (bars.length - 51)

/-- Number of non-skipped loop indices strictly before bar `idx`. -/
def evalCountBefore (bars : List Bar) (idx : ℕ) : ℕ := evalCountUpTo bars (idx - 50)

/-- Number of bars of the evaluation range classified with a non-`noSignal`
signal. -/
def countSignals (bars : List Bar) : ℕ :=
  ((List.range' 50 (bars.length - 51)).filter
    (fun i => decide (signalAt bars i ≠ .noSignal))).length

/-- Number of open positions held in a simulator state. -/
def openCount (st : SimState) : ℕ :=
  match st.position with
  | some _ => 1
  | none => 0

/-- Modelled from the spec: the specification's ClosedTrade pnl formula,
"the side-correct price difference times quantity, minus entry fee minus
exit fee" (spec §3 ClosedTrade and Testable Property 3).  Kept separate
from the source-derived definitions so the two can be compared. -/
def spec_pnl (t : ClosedTrade) : ℚ :=
  (if t.side = .LONG then t.exit_price - t.entry_price
   else t.entry_price - t.exit_price) * t.quantity
    - t.entry_price * feeRate * t.quantity
    - t.exit_price * feeRate * t.quantity

/-- The pnl the source actually records on a closure: side-correct price
difference times quantity minus the exit-side fee only. -/
def code_pnl (t : ClosedTrade) : ℚ :=
  (if t.side = .LONG then t.exit_price - t.entry_price
   else t.entry_price - t.exit_price) * t.quantity
    - t.exit_price * feeRate * t.quantity

/-- Floating-point tolerance named by the claims. -/
def tol : ℚ := 1 / 1000000000

/-- Alternating baseline close used by the concrete witness streams:
100 on even bars, 99 on odd bars (keeps the RSI mid-range). -/
def flatClose (k : ℕ) : ℚ := if k % 2 = 0 then 100 else 99

/-- Convenience bar constructor for the concrete streams (high/low/volume
are never read by the simulation). -/
def mkBar (t : Int) (o : ℚ) (c : Option ℚ) : Bar := ⟨t, o, 200, 0, c, 1⟩

/-- Witness stream: 52 bars whose closes alternate 100/99 up to bar 49,
then jump to 105 at bar 50 and drop to 90 at bar 51.  The loop runs for
bar 50 only, detects a bullish cross there (mid-range RSI), opens a long
at bar 51's open 106, and the long is then force-closed at bar 51's
close 90. -/
def stream52 : List Bar :=
  (List.range 52).map (fun (k : ℕ) =>
    mkBar (k : Int)
      (if k = 51 then 106 else flatClose k)
      (some (if k = 50 then 105 else if k = 51 then 90 else flatClose k)))

/-- Family of fully flat synthetic streams: `n` bars with constant close
100 (no variance). -/
def flatBars (n : ℕ) : List Bar :=
  (List.range n).map (fun (k : ℕ) => mkBar (k : Int) 100 (some 100))

/-- Witness stream: 52 flat bars — one evaluated bar (index 50), no
signal, no action. -/
def flat52 : List Bar := flatBars 52

/-- Scenario stream of the spec: 100 synthetic bars with fully flat
closes (no variance). -/
def flat100 : List Bar := flatBars 100

/-- Witness stream: 53 flat bars whose first close is missing (NaN).
Bar 50 is skipped (its previous slow-MA window contains the NaN) while
bar 51 is evaluated. -/
def nanA : List Bar :=
  (List.range 53).map (fun (k : ℕ) => mkBar (k : Int) 100 (if k = 0 then none else some 100))

/-!
Characterization lemmas for the action functions: each is either a no-op
(with the state returned unchanged) or produces its explicit record
outputs at bar `i+1`'s open price and timestamp.
-/

/-- Full case analysis of `closeShort`. -/
lemma closeShort_spec (bars : List Bar) (st : SimState) (i : ℕ) :
    (closeShort bars st i = ⟨st, [], []⟩ ∧ ∀ p, st.position = some p → p.side ≠ .SHORT)
  ∨ (∃ p, st.position = some p ∧ p.side = .SHORT ∧
      closeShort bars st i =
        ⟨⟨none, st.current_balance +
            ((p.entry_price - openOf bars (i + 1)) * 1 - openOf bars (i + 1) * feeRate * 1)⟩,
         [⟨tsOf bars (i + 1), "TEST.SIM", .BUY, 1, openOf bars (i + 1),
           openOf bars (i + 1) * feeRate * 1⟩],
         [⟨p.entry_timestamp, tsOf bars (i + 1), .SHORT, 1, p.entry_price, openOf bars (i + 1),
           (p.entry_price - openOf bars (i + 1)) * 1 - openOf bars (i + 1) * feeRate * 1⟩]⟩) := by
  cases h : st.position with
  | none =>
    left
    refine ⟨?_, fun p hp => Option.noConfusion hp⟩
    unfold closeShort; rw [h]
  | some p =>
    by_cases hs : p.side = .SHORT
    · right
      refine ⟨p, rfl, hs, ?_⟩
      unfold closeShort; rw [h]; simp [hs]
    · left
      refine ⟨?_, fun q hq => by injection hq with hq2; rw [← hq2]; exact hs⟩
      unfold closeShort; rw [h]; simp [hs]

/-- Full case analysis of `closeLong`. -/
lemma closeLong_spec (bars : List Bar) (st : SimState) (i : ℕ) :
    (closeLong bars st i = ⟨st, [], []⟩ ∧ ∀ p, st.position = some p → p.side ≠ .LONG)
  ∨ (∃ p, st.position = some p ∧ p.side = .LONG ∧
      closeLong bars st i =
        ⟨⟨none, st.current_balance +
            ((openOf bars (i + 1) - p.entry_price) * 1 - openOf bars (i + 1) * feeRate * 1)⟩,
         [⟨tsOf bars (i + 1), "TEST.SIM", .SELL, 1, openOf bars (i + 1),
           openOf bars (i + 1) * feeRate * 1⟩],
         [⟨p.entry_timestamp, tsOf bars (i + 1), .LONG, 1, p.entry_price, openOf bars (i + 1),
           (openOf bars (i + 1) - p.entry_price) * 1 - openOf bars (i + 1) * feeRate * 1⟩]⟩) := by
  cases h : st.position with
  | none =>
    left
    refine ⟨?_, fun p hp => Option.noConfusion hp⟩
    unfold closeLong; rw [h]
  | some p =>
    by_cases hs : p.side = .LONG
    · right
      refine ⟨p, rfl, hs, ?_⟩
      unfold closeLong; rw [h]; simp [hs]
    · left
      refine ⟨?_, fun q hq => by injection hq with hq2; rw [← hq2]; exact hs⟩
      unfold closeLong; rw [h]; simp [hs]

/-- Full case analysis of `openLong`. -/
lemma openLong_spec (bars : List Bar) (st : SimState) (i : ℕ) :
    ((∃ p, st.position = some p) ∧ openLong bars st i = ⟨st, []⟩)
  ∨ (st.position = none ∧ openLong bars st i =
      ⟨⟨some ⟨.LONG, openOf bars (i + 1), tsOf bars (i + 1), i + 1⟩,
        st.current_balance - openOf bars (i + 1) * feeRate * 1⟩,
       [⟨tsOf bars (i + 1), "TEST.SIM", .BUY, 1, openOf bars (i + 1),
         openOf bars (i + 1) * feeRate * 1⟩]⟩) := by
  cases h : st.position with
  | none => right; refine ⟨rfl, ?_⟩; unfold openLong; rw [h]
  | some p => left; refine ⟨⟨p, rfl⟩, ?_⟩; unfold openLong; rw [h]

/-- Full case analysis of `openShort`. -/
lemma openShort_spec (bars : List Bar) (st : SimState) (i : ℕ) :
    ((∃ p, st.position = some p) ∧ openShort bars st i = ⟨st, []⟩)
  ∨ (st.position = none ∧ openShort bars st i =
      ⟨⟨some ⟨.SHORT, openOf bars (i + 1), tsOf bars (i + 1), i + 1⟩,
        st.current_balance - openOf bars (i + 1) * feeRate * 1⟩,
       [⟨tsOf bars (i + 1), "TEST.SIM", .SELL, 1, openOf bars (i + 1),
         openOf bars (i + 1) * feeRate * 1⟩]⟩) := by
  cases h : st.position with
  | none => right; refine ⟨rfl, ?_⟩; unfold openShort; rw [h]
  | some p => left; refine ⟨⟨p, rfl⟩, ?_⟩; unfold openShort; rw [h]

/-- Full case analysis of `terminalClose`. -/
lemma terminalClose_spec (bars : List Bar) (st : SimState) :
    (st.position = none ∧ terminalClose bars st = ([], st.current_balance))
  ∨ (∃ p, st.position = some p ∧
      terminalClose bars st =
        ([⟨p.entry_timestamp, tsOf bars (bars.length - 1), p.side, 1, p.entry_price,
           (closeOf bars (bars.length - 1)).getD 0,
           (if p.side = .LONG
              then ((closeOf bars (bars.length - 1)).getD 0 - p.entry_price) * 1
              else (p.entry_price - (closeOf bars (bars.length - 1)).getD 0) * 1)
             - (closeOf bars (bars.length - 1)).getD 0 * feeRate * 1⟩],
         st.current_balance +
           ((if p.side = .LONG
               then ((closeOf bars (bars.length - 1)).getD 0 - p.entry_price) * 1
               else (p.entry_price - (closeOf bars (bars.length - 1)).getD 0) * 1)
             - (closeOf bars (bars.length - 1)).getD 0 * feeRate * 1))) := by
  cases h : st.position with
  | none => left; refine ⟨rfl, ?_⟩; unfold terminalClose; rw [h]
  | some p => right; refine ⟨p, rfl, ?_⟩; unfold terminalClose; rw [h]

/-- Reduction of `processBar` on a skipped bar: the `continue` leaves the
state untouched and emits nothing. -/
lemma processBar_of_skipped (bars : List Bar) (st : SimState) (i : ℕ)
    (h : skipped bars i) : processBar bars st i = ⟨st, [], [], []⟩ := by
  unfold skipped at h; unfold processBar; rw [h]

/-- Reduction of `processBar` on an evaluated bar. -/
lemma processBar_of_eval (bars : List Bar) (st : SimState) (i : ℕ)
    (f s r pf ps : ℚ) (h : indicatorsAt bars i = some (f, s, r, pf, ps)) :
    processBar bars st i =
      ⟨(applySignal bars st i (detect pf ps f s r)).state,
       (applySignal bars st i (detect pf ps f s r)).fills,
       (applySignal bars st i (detect pf ps f s r)).trades,
       [(applySignal bars st i (detect pf ps f s r)).state.current_balance]⟩ := by
  unfold processBar; rw [h]

/-- Every fill emitted by a signal at bar `i` carries bar `i+1`'s open
price and timestamp. -/
lemma applySignal_fills_spec (bars : List Bar) (st : SimState) (i : ℕ) (sig : Signal) :
    ∀ fl ∈ (applySignal bars st i sig).fills,
      fl.price = openOf bars (i + 1) ∧ fl.timestamp = tsOf bars (i + 1) := by
  intro fl hf
  cases sig with
  | noSignal => simp [applySignal] at hf
  | bullishCross =>
    simp only [applySignal, List.mem_append] at hf
    rcases hf with hf | hf
    · rcases closeShort_spec bars st i with ⟨he, _⟩ | ⟨p, _, _, he⟩ <;> rw [he] at hf
      · simp at hf
      · rw [List.mem_singleton] at hf; subst hf; exact ⟨rfl, rfl⟩
    · rcases openLong_spec bars (closeShort bars st i).state i with ⟨_, he⟩ | ⟨_, he⟩ <;>
        rw [he] at hf
      · simp at hf
      · rw [List.mem_singleton] at hf; subst hf; exact ⟨rfl, rfl⟩
  | bearishCross =>
    simp only [applySignal, List.mem_append] at hf
    rcases hf with hf | hf
    · rcases closeLong_spec bars st i with ⟨he, _⟩ | ⟨p, _, _, he⟩ <;> rw [he] at hf
      · simp at hf
      · rw [List.mem_singleton] at hf; subst hf; exact ⟨rfl, rfl⟩
    · rcases openShort_spec bars (closeLong bars st i).state i with ⟨_, he⟩ | ⟨_, he⟩ <;>
        rw [he] at hf
      · simp at hf
      · rw [List.mem_singleton] at hf; subst hf; exact ⟨rfl, rfl⟩

/-- Every trade closed by a signal at bar `i` exits at bar `i+1`'s open
price and timestamp, has unit quantity, records the side-correct price
difference net of the exit fee only, and takes its entry fields from the
position being closed. -/
lemma applySignal_trades_spec (bars : List Bar) (st : SimState) (i : ℕ) (sig : Signal) :
    ∀ t ∈ (applySignal bars st i sig).trades,
      t.exit_price = openOf bars (i + 1) ∧ t.exit_time = tsOf bars (i + 1) ∧
      t.quantity = 1 ∧ t.pnl = code_pnl t ∧
      ∃ p, st.position = some p ∧ t.entry_price = p.entry_price ∧
        t.entry_time = p.entry_timestamp := by
  intro t ht
  cases sig with
  | noSignal => simp [applySignal] at ht
  | bullishCross =>
    simp only [applySignal] at ht
    rcases closeShort_spec bars st i with ⟨he, _⟩ | ⟨p, hp, _, he⟩ <;> rw [he] at ht
    · simp at ht
    · rw [List.mem_singleton] at ht; subst ht
      refine ⟨rfl, rfl, rfl, ?_, p, hp, rfl, rfl⟩
      simp [code_pnl]
  | bearishCross =>
    simp only [applySignal] at ht
    rcases closeLong_spec bars st i with ⟨he, _⟩ | ⟨p, hp, _, he⟩ <;> rw [he] at ht
    · simp at ht
    · rw [List.mem_singleton] at ht; subst ht
      refine ⟨rfl, rfl, rfl, ?_, p, hp, rfl, rfl⟩
      simp [code_pnl]

/-- Invariant of the simulator state: any live position was opened at the
open price and timestamp of the post-warm-up bar recorded in its
`entry_idx` field. -/
def entryOK (bars : List Bar) (st : SimState) : Prop :=
  ∀ p, st.position = some p → 51 ≤ p.entry_idx ∧
    p.entry_price = openOf bars p.entry_idx ∧ p.entry_timestamp = tsOf bars p.entry_idx

/-- Invariant of the trade ledger: every recorded trade entered at the
open price and timestamp of some post-warm-up bar. -/
def tradesOK (bars : List Bar) (l : List ClosedTrade) : Prop :=
  ∀ t ∈ l, ∃ j, 51 ≤ j ∧ t.entry_price = openOf bars j ∧ t.entry_time = tsOf bars j

/-- Applying a signal at a post-warm-up bar preserves `entryOK`. -/
lemma applySignal_entryOK (bars : List Bar) (st : SimState) (i : ℕ) (sig : Signal)
    (hi : 50 ≤ i) (h : entryOK bars st) :
    entryOK bars (applySignal bars st i sig).state := by
  cases sig with
  | noSignal => exact h
  | bullishCross =>
    simp only [applySignal]
    rcases openLong_spec bars (closeShort bars st i).state i with ⟨_, he⟩ | ⟨_, he⟩ <;> rw [he]
    · rcases closeShort_spec bars st i with ⟨he2, _⟩ | ⟨q, _, _, he2⟩ <;> rw [he2]
      · exact h
      · intro p2 hp2; exact Option.noConfusion hp2
    · intro p2 hp2
      injection hp2 with h2
      subst h2
      exact ⟨show 51 ≤ i + 1 by omega, rfl, rfl⟩
  | bearishCross =>
    simp only [applySignal]
    rcases openShort_spec bars (closeLong bars st i).state i with ⟨_, he⟩ | ⟨_, he⟩ <;> rw [he]
    · rcases closeLong_spec bars st i with ⟨he2, _⟩ | ⟨q, _, _, he2⟩ <;> rw [he2]
      · exact h
      · intro p2 hp2; exact Option.noConfusion hp2
    · intro p2 hp2
      injection hp2 with h2
      subst h2
      exact ⟨show 51 ≤ i + 1 by omega, rfl, rfl⟩

/-- One loop iteration at a post-warm-up bar preserves `entryOK`. -/
lemma processBar_entryOK (bars : List Bar) (st : SimState) (i : ℕ)
    (hi : 50 ≤ i) (h : entryOK bars st) :
    entryOK bars (processBar bars st i).state := by
  cases hio : indicatorsAt bars i with
  | none => rw [processBar_of_skipped bars st i hio]; exact h
  | some q =>
    obtain ⟨f, s, r, pf, ps⟩ := q
    rw [processBar_of_eval bars st i f s r pf ps hio]
    exact applySignal_entryOK bars st i _ hi h

/-- Trades emitted by one loop iteration enter at a post-warm-up bar's
open, provided the incoming state satisfies `entryOK`. -/
lemma processBar_trades_entry (bars : List Bar) (st : SimState) (i : ℕ)
    (h : entryOK bars st) :
    ∀ t ∈ (processBar bars st i).trades,
      ∃ j, 51 ≤ j ∧ t.entry_price = openOf bars j ∧ t.entry_time = tsOf bars j := by
  intro t ht
  cases hio : indicatorsAt bars i with
  | none => rw [processBar_of_skipped bars st i hio] at ht; simp at ht
  | some q =>
    obtain ⟨f, s, r, pf, ps⟩ := q
    rw [processBar_of_eval bars st i f s r pf ps hio] at ht
    obtain ⟨_, _, _, _, p, hp, hep, het⟩ := applySignal_trades_spec bars st i _ t ht
    obtain ⟨hj, hjp, hjt⟩ := h p hp
    exact ⟨p.entry_idx, hj, by rw [hep, hjp], by rw [het, hjt]⟩

/-- Unfolding of the loop: one more iteration processes bar `50 + m`. -/
lemma runUpTo_succ (bars : List Bar) (m : ℕ) :
    runUpTo bars (m + 1) = stepFn bars (runUpTo bars m) (50 + m) := by
  unfold runUpTo
  rw [List.range'_concat, List.foldl_append]
  simp

/-- The loop maintains `entryOK` and `tradesOK`. -/
lemma runUpTo_invariant (bars : List Bar) (m : ℕ) :
    entryOK bars (runUpTo bars m).state ∧ tradesOK bars (runUpTo bars m).trades := by
  induction m with
  | zero =>
    constructor
    · intro p hp; exact Option.noConfusion hp
    · intro t ht; simp [runUpTo, initAcc] at ht
  | succ m ih =>
    rw [runUpTo_succ]
    constructor
    · exact processBar_entryOK bars _ _ (by omega) ih.1
    · intro t ht
      rcases List.mem_append.mp ht with ht | ht
      · exact ih.2 t ht
      · exact processBar_trades_entry bars _ _ ih.1 t ht

/-- One evaluated loop iteration appends exactly one equity point: the
balance after the iteration's actions. -/
lemma processBar_eq_spec (bars : List Bar) (st : SimState) (i : ℕ)
    (h : ¬ skipped bars i) :
    (processBar bars st i).eq = [(processBar bars st i).state.current_balance] := by
  unfold skipped at h
  cases hio : indicatorsAt bars i with
  | none => exact absurd hio h
  | some q =>
    obtain ⟨f, s, r, pf, ps⟩ := q
    rw [processBar_of_eval bars st i f s r pf ps hio]

/-- Counting evaluated bars, one step at a time. -/
lemma evalCountUpTo_succ (bars : List Bar) (m : ℕ) :
    evalCountUpTo bars (m + 1) =
      evalCountUpTo bars m + (if skipped bars (50 + m) then 0 else 1) := by
  unfold evalCountUpTo
  rw [List.range'_concat, List.filter_append, List.length_append]
  by_cases h : skipped bars (50 + m)
  · rw [if_pos h]
    have h2 : indicatorsAt bars (50 + m) = none := h
    simp [h2]
  · rw [if_neg h]
    have h2 : ¬ indicatorsAt bars (50 + m) = none := h
    cases hio : indicatorsAt bars (50 + m) with
    | none => exact absurd hio h2
    | some q => simp [hio]

/-- The equity list holds the initial point plus one point per evaluated
(non-skipped) bar. -/
lemma runUpTo_eq_length (bars : List Bar) (m : ℕ) :
    (runUpTo bars m).eq.length = 1 + evalCountUpTo bars m := by
  induction m with
  | zero => rfl
  | succ m ih =>
    rw [runUpTo_succ, evalCountUpTo_succ]
    show ((runUpTo bars m).eq ++ (processBar bars (runUpTo bars m).state (50 + m)).eq).length = _
    rw [List.length_append, ih]
    by_cases h : skipped bars (50 + m)
    · rw [processBar_of_skipped bars _ _ h]
      simp [h]
    · rw [processBar_eq_spec bars _ _ h]
      simp [h]
      omega

/-- C3: for every pair of consecutive ready indicator snapshots, the
detector classifies the bar as BullishCross iff `prevFast ≤ prevSlow ∧
fast > slow ∧ rsi < 70`, as BearishCross iff `prevFast ≥ prevSlow ∧
fast < slow ∧ rsi > 30`, and as NoSignal otherwise; equal MAs on the
previous bar are absorbed into the non-strict side and equal MAs on the
current bar never trigger (both strict comparisons fail).  The final
conjunct ties the per-bar classification of the run to the detector. -/
theorem C3_detector_characterization (pf ps f s r : ℚ) :
    (detect pf ps f s r = .bullishCross ↔ pf ≤ ps ∧ s < f ∧ r < 70)
  ∧ (detect pf ps f s r = .bearishCross ↔ ps ≤ pf ∧ f < s ∧ 30 < r)
  ∧ (detect pf ps f s r = .noSignal ↔
      ¬(pf ≤ ps ∧ s < f ∧ r < 70) ∧ ¬(ps ≤ pf ∧ f < s ∧ 30 < r))
  ∧ (∀ (bars : List Bar) (i : ℕ) (f2 s2 r2 pf2 ps2 : ℚ),
      indicatorsAt bars i = some (f2, s2, r2, pf2, ps2) →
      signalAt bars i = detect pf2 ps2 f2 s2 r2) := by
  refine ⟨?_, ?_, ?_, ?_⟩
  · unfold detect
    split_ifs with h1 h2
    · simp [h1]
    · refine ⟨fun h => ?_, fun hc => absurd hc h1⟩
      simp at h
    · refine ⟨fun h => ?_, fun hc => absurd hc h1⟩
      simp at h
  · unfold detect
    split_ifs with h1 h2
    · refine ⟨fun h => ?_, fun hc => absurd hc.2.1 (lt_asymm h1.2.1)⟩
      simp at h
    · simp [h2]
    · refine ⟨fun h => ?_, fun hc => absurd hc h2⟩
      simp at h
  · unfold detect
    split_ifs with h1 h2
    · refine ⟨fun h => ?_, fun hc => absurd h1 hc.1⟩
      simp at h
    · refine ⟨fun h => ?_, fun hc => absurd h2 hc.2⟩
      simp at h
    · simp [h1, h2]
  · intro bars i f2 s2 r2 pf2 ps2 h
    unfold signalAt
    rw [h]

/-- Witness for C3: a strict upward crossing with mid-range RSI is
classified bullish. -/
theorem C3_detector_characterization_witness :
    detect 100 100 101 100 50 = .bullishCross :=
  ((C3_detector_characterization 100 100 101 100 50).1).mpr (by norm_num)

/-- C5: the simulator state holds at most one open position (the single
`position` slot), and an open action changes the position slot only when
the state entering it is flat — both directly (`state = Flat → open`) and
inside a reversal, where the close step has already returned the slot to
`none` before the open step runs. -/
theorem C5_single_position_invariant :
    (∀ st : SimState, openCount st ≤ 1)
  ∧ (∀ (bars : List Bar) (st : SimState) (i : ℕ),
      (openLong bars st i).state.position ≠ st.position → st.position = none)
  ∧ (∀ (bars : List Bar) (st : SimState) (i : ℕ),
      (openShort bars st i).state.position ≠ st.position → st.position = none) := by
  refine ⟨?_, ?_, ?_⟩
  · intro st
    unfold openCount
    cases st.position <;> simp
  · intro bars st i h
    rcases openLong_spec bars st i with ⟨_, he⟩ | ⟨hp, _⟩
    · rw [he] at h
      exact absurd rfl h
    · exact hp
  · intro bars st i h
    rcases openShort_spec bars st i with ⟨_, he⟩ | ⟨hp, _⟩
    · rw [he] at h
      exact absurd rfl h
    · exact hp

/-- Witness for C5: a long open from the flat state really changed the
slot, and the theorem recovers that the prior state was flat. -/
theorem C5_single_position_invariant_witness :
    (⟨none, (0 : ℚ)⟩ : SimState).position = none :=
  C5_single_position_invariant.2.1 [] ⟨none, 0⟩ 0 (by decide)

/-- C9: a bar whose required indicators are NaN is skipped — the
iteration returns the state unchanged and emits no fill, trade or equity
point — while the loop simply moves on to the remaining indices with the
position state carried over unchanged. -/
theorem C9_nan_bar_skipped :
    ∀ (bars : List Bar) (st : SimState) (i : ℕ) (acc : RunAcc) (rest : List ℕ),
      skipped bars i →
      processBar bars st i = ⟨st, [], [], []⟩
      ∧ List.foldl (stepFn bars) acc (i :: rest) = List.foldl (stepFn bars) acc rest := by
  intro bars st i acc rest h
  refine ⟨processBar_of_skipped bars st i h, ?_⟩
  rw [List.foldl_cons]
  have hs : stepFn bars acc i = acc := by
    unfold stepFn
    rw [processBar_of_skipped bars acc.state i h]
    cases acc
    simp
  rw [hs]

/-- Witness for C9: on the stream with a NaN close at bar 0, bar 50 is
skipped and the iteration is a no-op. -/
theorem C9_nan_bar_skipped_witness :
    processBar nanA ⟨none, startingBalance⟩ 50 = ⟨⟨none, startingBalance⟩, [], [], []⟩ :=
  (C9_nan_bar_skipped nanA ⟨none, startingBalance⟩ 50 initAcc [] (by decide)).1

/-!
Closed-form evaluation of the run on a fully flat stream `flatBars n`:
every close equals 100, so both moving averages are constantly 100,
every price difference is 0, and the RSI column is constantly 0 (zero
average gain over `eps`-guarded zero average loss).
-/

/-- Every close of the flat scenario stream is 100. -/
lemma flatBars_close (n i : ℕ) (h : i < n) : closeOf (flatBars n) i = some 100 := by
  unfold closeOf barAt flatBars
  rw [List.getD_eq_getElem?_getD, List.getElem?_map, List.getElem?_range h]
  rfl

/-- Rolling means over the flat stream are constantly 100. -/
lemma flatBars_rolling (n w i : ℕ) (hw : 0 < w) (h1 : w ≤ i + 1) (h2 : i < n) :
    rollingMeanClose (flatBars n) w i = some 100 := by
  unfold rollingMeanClose
  rw [if_pos h1]
  have hcs : (List.range w).map (fun k => closeOf (flatBars n) (i - k))
      = List.replicate w (some (100 : ℚ)) := by
    refine List.eq_replicate_iff.mpr ⟨by simp, ?_⟩
    intro b hb
    rw [List.mem_map] at hb
    obtain ⟨k, hk, hbk⟩ := hb
    rw [← hbk]
    exact flatBars_close n _ (by omega)
  rw [hcs]
  have hw0 : (w : ℚ) ≠ 0 := Nat.cast_ne_zero.mpr (by omega)
  have hall : (List.replicate w (some (100 : ℚ))).all Option.isSome = true := by
    simp [List.all_eq_true, List.mem_replicate]
  rw [if_pos hall]
  congr 1
  simp only [List.map_replicate, Option.getD_some, List.sum_replicate, nsmul_eq_mul]
  exact mul_div_cancel_left₀ _ hw0

/-- Price differences over the flat stream vanish. -/
lemma flatBars_diff (n i : ℕ) (h1 : 1 ≤ i) (h2 : i < n) :
    price_diff (flatBars n) i = some 0 := by
  unfold price_diff
  rw [if_neg (by omega), flatBars_close n i h2, flatBars_close n (i - 1) (by omega)]
  norm_num

/-- The gain column of the flat stream is zero. -/
lemma flatBars_gain (n i : ℕ) (h2 : i < n) : gain (flatBars n) i = 0 := by
  unfold gain
  by_cases h1 : i = 0
  · subst h1
    rw [show price_diff (flatBars n) 0 = none from rfl]
  · rw [flatBars_diff n i (by omega) h2]
    norm_num

/-- The loss column of the flat stream is zero. -/
lemma flatBars_loss (n i : ℕ) (h2 : i < n) : loss (flatBars n) i = 0 := by
  unfold loss
  by_cases h1 : i = 0
  · subst h1
    rw [show price_diff (flatBars n) 0 = none from rfl]
  · rw [flatBars_diff n i (by omega) h2]
    norm_num

/-- The average gain over the flat stream is zero. -/
lemma flatBars_avg_gain (n i : ℕ) (h1 : 13 ≤ i) (h2 : i < n) :
    avg_gain (flatBars n) i = some 0 := by
  unfold avg_gain
  rw [if_pos h1]
  have hcs : (List.range 14).map (fun k => gain (flatBars n) (i - k))
      = List.replicate 14 (0 : ℚ) := by
    refine List.eq_replicate_iff.mpr ⟨by simp, ?_⟩
    intro b hb
    rw [List.mem_map] at hb
    obtain ⟨k, hk, hbk⟩ := hb
    rw [← hbk]
    exact flatBars_gain n _ (by omega)
  rw [hcs]
  simp [List.sum_replicate]

/-- The average loss over the flat stream is zero. -/
lemma flatBars_avg_loss (n i : ℕ) (h1 : 13 ≤ i) (h2 : i < n) :
    avg_loss (flatBars n) i = some 0 := by
  unfold avg_loss
  rw [if_pos h1]
  have hcs : (List.range 14).map (fun k => loss (flatBars n) (i - k))
      = List.replicate 14 (0 : ℚ) := by
    refine List.eq_replicate_iff.mpr ⟨by simp, ?_⟩
    intro b hb
    rw [List.mem_map] at hb
    obtain ⟨k, hk, hbk⟩ := hb
    rw [← hbk]
    exact flatBars_loss n _ (by omega)
  rw [hcs]
  simp [List.sum_replicate]

/-- The RSI of the flat stream is constantly 0. -/
lemma flatBars_rsi (n i : ℕ) (h1 : 13 ≤ i) (h2 : i < n) : rsi (flatBars n) i = some 0 := by
  unfold rsi
  rw [flatBars_avg_gain n i h1 h2, flatBars_avg_loss n i h1 h2]
  norm_num [eps]

/-- The five indicator reads of an evaluation-range bar of the flat
stream. -/
lemma flatBars_indicators (n i : ℕ) (h1 : 50 ≤ i) (h2 : i < n) :
    indicatorsAt (flatBars n) i = some (100, 100, 0, 100, 100) := by
  unfold indicatorsAt
  rw [show fast_ma (flatBars n) i = some 100 from
        flatBars_rolling n 20 i (by omega) (by omega) (by omega),
      show slow_ma (flatBars n) i = some 100 from
        flatBars_rolling n 50 i (by omega) (by omega) (by omega),
      flatBars_rsi n i (by omega) (by omega),
      show fast_ma (flatBars n) (i - 1) = some 100 from
        flatBars_rolling n 20 (i - 1) (by omega) (by omega) (by omega),
      show slow_ma (flatBars n) (i - 1) = some 100 from
        flatBars_rolling n 50 (i - 1) (by omega) (by omega) (by omega)]

/-- Equal moving averages with RSI 0 trigger no signal: both strict
current-bar comparisons fail. -/
lemma detect_flat : detect 100 100 100 100 0 = .noSignal := by
  unfold detect
  norm_num

/-- A flat-stream loop iteration is pure equity bookkeeping. -/
lemma flatBars_processBar (n : ℕ) (st : SimState) (i : ℕ) (h1 : 50 ≤ i) (h2 : i < n) :
    processBar (flatBars n) st i = ⟨st, [], [], [st.current_balance]⟩ := by
  rw [processBar_of_eval (flatBars n) st i 100 100 0 100 100 (flatBars_indicators n i h1 h2),
      detect_flat]
  rfl

/-- The flat-stream loop keeps the initial state and accumulates one
constant equity point per iteration. -/
lemma flatBars_run (n m : ℕ) (hm : 50 + m ≤ n) :
    runUpTo (flatBars n) m
      = ⟨⟨none, startingBalance⟩, [], [], List.replicate (m + 1) startingBalance⟩ := by
  induction m with
  | zero => rfl
  | succ m ih =>
    rw [runUpTo_succ, ih (by omega)]
    unfold stepFn
    rw [flatBars_processBar n _ _ (by omega) (by omega)]
    simp [List.replicate_succ']

/-!
Closed-form evaluation of the indicators of `stream52` at the single
evaluated bar 50.  Each window is first identified with its literal list
of closes (pure data, no arithmetic), and the resulting rational means
are then computed by `norm_num`.
-/

/-- The fast window at bar 50 of `stream52`, as literal data. -/
lemma stream52_fast50 : fast_ma stream52 50 = some (399 / 4) := by
  unfold fast_ma rollingMeanClose
  rw [if_pos (by omega)]
  rw [show (List.range 20).map (fun k => closeOf stream52 (50 - k))
        = ([some 105, some 99, some 100, some 99, some 100, some 99, some 100, some 99, some 100, some 99, some 100, some 99, some 100, some 99, some 100, some 99, some 100, some 99, some 100, some 99] : List (Option ℚ)) from rfl]
  rw [if_pos (by rfl)]
  norm_num

/-- The slow window at bar 50 of `stream52`. -/
lemma stream52_slow50 : slow_ma stream52 50 = some (498 / 5) := by
  unfold slow_ma rollingMeanClose
  rw [if_pos (by omega)]
  rw [show (List.range 50).map (fun k => closeOf stream52 (50 - k))
        = ([some 105, some 99, some 100, some 99, some 100, some 99, some 100, some 99, some 100, some 99, some 100, some 99, some 100, some 99, some 100, some 99, some 100, some 99, some 100, some 99, some 100, some 99, some 100, some 99, some 100, some 99, some 100, some 99, some 100, some 99, some 100, some 99, some 100, some 99, some 100, some 99, some 100, some 99, some 100, some 99, some 100, some 99, some 100, some 99, some 100, some 99, some 100, some 99, some 100, some 99] : List (Option ℚ)) from rfl]
  rw [if_pos (by rfl)]
  norm_num

/-- The fast window at bar 49 of `stream52`. -/
lemma stream52_fast49 : fast_ma stream52 49 = some (199 / 2) := by
  unfold fast_ma rollingMeanClose
  rw [if_pos (by omega)]
  rw [show (List.range 20).map (fun k => closeOf stream52 (49 - k))
        = ([some 99, some 100, some 99, some 100, some 99, some 100, some 99, some 100, some 99, some 100, some 99, some 100, some 99, some 100, some 99, some 100, some 99, some 100, some 99, some 100] : List (Option ℚ)) from rfl]
  rw [if_pos (by rfl)]
  norm_num

/-- The slow window at bar 49 of `stream52`. -/
lemma stream52_slow49 : slow_ma stream52 49 = some (199 / 2) := by
  unfold slow_ma rollingMeanClose
  rw [if_pos (by omega)]
  rw [show (List.range 50).map (fun k => closeOf stream52 (49 - k))
        = ([some 99, some 100, some 99, some 100, some 99, some 100, some 99, some 100, some 99, some 100, some 99, some 100, some 99, some 100, some 99, some 100, some 99, some 100, some 99, some 100, some 99, some 100, some 99, some 100, some 99, some 100, some 99, some 100, some 99, some 100, some 99, some 100, some 99, some 100, some 99, some 100, some 99, some 100, some 99, some 100, some 99, some 100, some 99, some 100, some 99, some 100, some 99, some 100, some 99, some 100] : List (Option ℚ)) from rfl]
  rw [if_pos (by rfl)]
  norm_num

/-- The gain window at bar 50 of `stream52`: the 105 jump contributes 6,
the alternating baseline contributes six unit gains. -/
lemma stream52_avg_gain50 : avg_gain stream52 50 = some (6 / 7) := by
  unfold avg_gain
  rw [if_pos (by omega)]
  rw [show (List.range 14).map (fun k => gain stream52 (50 - k))
        = ([6, 0, 1, 0, 1, 0, 1, 0, 1, 0, 1, 0, 1, 0] : List ℚ) from by
      with_unfolding_all rfl]
  norm_num

/-- The loss window at bar 50 of `stream52`: seven unit losses. -/
lemma stream52_avg_loss50 : avg_loss stream52 50 = some (1 / 2) := by
  unfold avg_loss
  rw [if_pos (by omega)]
  rw [show (List.range 14).map (fun k => loss stream52 (50 - k))
        = ([0, 1, 0, 1, 0, 1, 0, 1, 0, 1, 0, 1, 0, 1] : List ℚ) from by
      with_unfolding_all rfl]
  norm_num

/-- The RSI at bar 50 of `stream52` (about 63.2, inside the band). -/
lemma stream52_rsi50 : rsi stream52 50 = some (2000000000000 / 31666666669) := by
  unfold rsi
  rw [stream52_avg_gain50, stream52_avg_loss50]
  norm_num [eps]

/-- The indicator reads of bar 50 of `stream52`. -/
lemma stream52_indicators :
    indicatorsAt stream52 50
      = some (399 / 4, 498 / 5, 2000000000000 / 31666666669, 199 / 2, 199 / 2) := by
  unfold indicatorsAt
  rw [stream52_fast50, stream52_slow50, stream52_rsi50]
  rw [show fast_ma stream52 (50 - 1) = some (199 / 2) from stream52_fast49,
      show slow_ma stream52 (50 - 1) = some (199 / 2) from stream52_slow49]

/-- Bar 50 of `stream52` is a bullish cross: the previous MAs tie, the
fast MA moves strictly above the slow one, and the RSI is below 70. -/
lemma stream52_detect_bullish :
    detect (199 / 2) (199 / 2) (399 / 4) (498 / 5) (2000000000000 / 31666666669)
      = .bullishCross := by
  unfold detect
  rw [if_pos ⟨by norm_num, by norm_num, by norm_num⟩]

/-- The bullish branch entered from the flat state, fully reduced. -/
lemma applySignal_bullish_flat (bars : List Bar) (b : ℚ) (i : ℕ) :
    applySignal bars ⟨none, b⟩ i .bullishCross =
      ⟨⟨some ⟨.LONG, openOf bars (i + 1), tsOf bars (i + 1), i + 1⟩,
        b - openOf bars (i + 1) * feeRate * 1⟩,
       [⟨tsOf bars (i + 1), "TEST.SIM", .BUY, 1, openOf bars (i + 1),
         openOf bars (i + 1) * feeRate * 1⟩],
       []⟩ := rfl

/-- The bullish branch entered while short (a reversal), fully reduced. -/
lemma applySignal_bullish_short (bars : List Bar) (e : ℚ) (t0 : Int) (j : ℕ)
    (b : ℚ) (i : ℕ) :
    applySignal bars ⟨some ⟨.SHORT, e, t0, j⟩, b⟩ i .bullishCross =
      ⟨⟨some ⟨.LONG, openOf bars (i + 1), tsOf bars (i + 1), i + 1⟩,
        b + ((e - openOf bars (i + 1)) * 1 - openOf bars (i + 1) * feeRate * 1)
          - openOf bars (i + 1) * feeRate * 1⟩,
       [⟨tsOf bars (i + 1), "TEST.SIM", .BUY, 1, openOf bars (i + 1),
         openOf bars (i + 1) * feeRate * 1⟩,
        ⟨tsOf bars (i + 1), "TEST.SIM", .BUY, 1, openOf bars (i + 1),
         openOf bars (i + 1) * feeRate * 1⟩],
       [⟨t0, tsOf bars (i + 1), .SHORT, 1, e, openOf bars (i + 1),
         (e - openOf bars (i + 1)) * 1 - openOf bars (i + 1) * feeRate * 1⟩]⟩ := rfl

/-- The single loop iteration of `stream52`, started flat: it opens the
long at bar 51's open 106. -/
lemma stream52_processBar_flat (b : ℚ) :
    processBar stream52 ⟨none, b⟩ 50 =
      ⟨⟨some ⟨.LONG, 106, 51, 51⟩, b - 106 * feeRate * 1⟩,
       [⟨51, "TEST.SIM", .BUY, 1, 106, 106 * feeRate * 1⟩],
       [],
       [b - 106 * feeRate * 1]⟩ := by
  rw [processBar_of_eval stream52 ⟨none, b⟩ 50 (399 / 4) (498 / 5)
        (2000000000000 / 31666666669) (199 / 2) (199 / 2) stream52_indicators,
      stream52_detect_bullish, applySignal_bullish_flat]
  rfl

/-- The trade closed when the bullish cross at bar 50 of `stream52` hits
a short position entered at 100. -/
lemma stream52_trades_short :
    (processBar stream52 ⟨some ⟨.SHORT, 100, 40, 40⟩, 0⟩ 50).trades
      = [⟨40, 51, .SHORT, 1, 100, 106, -30053 / 5000⟩] := by
  rw [processBar_of_eval stream52 ⟨some ⟨.SHORT, 100, 40, 40⟩, 0⟩ 50 (399 / 4) (498 / 5)
        (2000000000000 / 31666666669) (199 / 2) (199 / 2) stream52_indicators,
      stream52_detect_bullish, applySignal_bullish_short]
  norm_num [show openOf stream52 51 = 106 from rfl,
            show tsOf stream52 51 = (51 : Int) from rfl, feeRate]

/-- Counterexample to C4: on 52 flat bars there is no balance-affecting
action at all — no fill, no trade, no fee — yet the run produces a second
EquityPoint (for evaluated bar 50) beyond the initial one.  Under the
claim, a run with zero balance-affecting actions could hold no
EquityPoint beyond the initial point. -/
theorem C4_equity_counterexample :
    (fallback_backtest_csv flat52).fills = []
  ∧ (fallback_backtest_csv flat52).positions = []
  ∧ (fallback_backtest_csv flat52).equity = [startingBalance, startingBalance] := by
  have hrun : runBars flat52
      = ⟨⟨none, startingBalance⟩, [], [], List.replicate 2 startingBalance⟩ := by
    show runUpTo (flatBars 52) ((flatBars 52).length - 51) = _
    have hlen : (flatBars 52).length = 52 := by simp [flatBars]
    rw [hlen]
    exact flatBars_run 52 1 (by omega)
  refine ⟨?_, ?_, ?_⟩
  · show (runBars flat52).fills = []
    rw [hrun]
  · show (runBars flat52).trades ++ (terminalClose flat52 (runBars flat52).state).1 = []
    rw [hrun]
    rfl
  · show (runBars flat52).eq = [startingBalance, startingBalance]
    rw [hrun]
    rfl

/-- C4 as amended: one EquityPoint is appended at the end of every
non-skipped bar of the evaluation range — whether or not a
balance-affecting action occurred on that bar (a reversal's two actions
therefore share a single point) — skipped bars append none, and the
terminal forced closure changes the balance without appending any
EquityPoint (the output equity list is exactly the loop's list). -/
theorem C4_equity_per_processed_bar :
    (∀ (bars : List Bar) (st : SimState) (i : ℕ),
      (¬ skipped bars i →
        (processBar bars st i).eq = [(processBar bars st i).state.current_balance])
      ∧ (skipped bars i → (processBar bars st i).eq = []))
  ∧ (∀ bars : List Bar,
      (fallback_backtest_csv bars).equity = (runBars bars).eq
      ∧ (fallback_backtest_csv bars).equity.length = 1 + evalCount bars) := by
  constructor
  · intro bars st i
    refine ⟨processBar_eq_spec bars st i, fun h => ?_⟩
    rw [processBar_of_skipped bars st i h]
  · intro bars
    exact ⟨rfl, runUpTo_eq_length bars _⟩

/-- Witness for C4's amended statement: the evaluated bar 50 of the flat
52-bar stream appends its (unchanged) balance as an equity point. -/
theorem C4_equity_per_processed_bar_witness :
    (processBar flat52 ⟨none, startingBalance⟩ 50).eq =
      [(processBar flat52 ⟨none, startingBalance⟩ 50).state.current_balance] :=
  (C4_equity_per_processed_bar.1 flat52 ⟨none, startingBalance⟩ 50).1 (by decide)

/-- C10: the equity list holds one initial point plus one point per
non-skipped bar (conjunct 1), while the written timestamp column is taken
from the consecutive bar indices `50, 51, ...` regardless of which bars
were skipped (conjunct 2).  Conjunct 3 locates each evaluated bar's
balance inside the equity list: the balance recorded after evaluated bar
`idx` is appended at list position `1 + evalCountBefore bars idx`, hence
is paired with the timestamp of bar `51 + evalCountBefore bars idx`.
Conjunct 4 shows that once any bar `j < idx` was skipped this paired
index is at most `idx` — at or before the bar that produced the balance —
whereas on a skip-free stream the pairing is with bar `idx + 1`; so every
input with a skipped bar pairs equity balances with wrong timestamps. -/
theorem C10_equity_timestamp_misalignment :
    (∀ bars : List Bar, (fallback_backtest_csv bars).equity.length = 1 + evalCount bars)
  ∧ (∀ bars : List Bar, (fallback_backtest_csv bars).equity_timestamps =
      (List.range' 50 ((fallback_backtest_csv bars).equity.length)).map (tsOf bars))
  ∧ (∀ (bars : List Bar) (idx : ℕ), 50 ≤ idx → ¬ skipped bars idx →
      (runUpTo bars (idx + 1 - 50)).eq =
        (runUpTo bars (idx - 50)).eq ++ [(runUpTo bars (idx + 1 - 50)).state.current_balance]
      ∧ (runUpTo bars (idx - 50)).eq.length = 1 + evalCountBefore bars idx)
  ∧ (∀ (bars : List Bar) (j idx : ℕ), 50 ≤ j → j < idx → skipped bars j →
      evalCountBefore bars idx + 51 ≤ idx) := by
  refine ⟨?_, ?_, ?_, ?_⟩
  · intro bars
    exact runUpTo_eq_length bars _
  · intro bars
    rfl
  · intro bars idx hidx hns
    have h50 : idx + 1 - 50 = (idx - 50) + 1 := by omega
    have h51 : 50 + (idx - 50) = idx := by omega
    rw [h50, runUpTo_succ, h51]
    constructor
    · show (runUpTo bars (idx - 50)).eq ++ (processBar bars (runUpTo bars (idx - 50)).state idx).eq
          = (runUpTo bars (idx - 50)).eq
            ++ [(processBar bars (runUpTo bars (idx - 50)).state idx).state.current_balance]
      rw [processBar_eq_spec bars _ _ hns]
    · exact runUpTo_eq_length bars _
  · intro bars j idx hj hji hsk
    have hidx : 51 ≤ idx := by omega
    unfold evalCountBefore evalCountUpTo
    have hmem : j ∈ List.range' 50 (idx - 50) := by
      rw [List.mem_range'_1]
      omega
    have hlt : ((List.range' 50 (idx - 50)).filter
        (fun i => !(indicatorsAt bars i).isNone)).length
        < (List.range' 50 (idx - 50)).length := by
      refine List.length_filter_lt_length_iff_exists.mpr ⟨j, hmem, ?_⟩
      unfold skipped at hsk
      simp [hsk]
    rw [List.length_range'] at hlt
    omega

/-- Witness for C10: on the stream with a NaN close at bar 0, bar 50 is
skipped while bar 51 is evaluated, and bar 51's equity point is paired
with a timestamp index (51) at or before bar 51 itself. -/
theorem C10_equity_timestamp_misalignment_witness :
    evalCountBefore nanA 51 + 51 ≤ 51 :=
  C10_equity_timestamp_misalignment.2.2.2 nanA 50 51 (by decide) (by decide) (by decide)

/-- Counterexample to C2: on `stream52` the long entered at 106 (entry
fee `0.0106` charged to the balance) and force-closed at 90 is recorded
with pnl `-16.009` — the price difference net of the exit fee `0.009`
only — while the claim's formula (net of both fees) gives `-16.0196`, a
discrepancy of `0.0106`, far above the `1e-9` tolerance. -/
theorem C2_pnl_counterexample :
    (fallback_backtest_csv stream52).positions
      = [⟨51, 51, .LONG, 1, 106, 90, -16009 / 1000⟩]
  ∧ tol < |(-16009 / 1000 : ℚ)
            - spec_pnl ⟨51, 51, .LONG, 1, 106, 90, -16009 / 1000⟩| := by
  constructor
  · have hpos : (fallback_backtest_csv stream52).positions
        = (runBars stream52).trades ++ (terminalClose stream52 (runBars stream52).state).1 :=
      rfl
    have hrun : runBars stream52
        = ⟨⟨some ⟨.LONG, 106, 51, 51⟩, startingBalance - 106 * feeRate * 1⟩,
           [⟨51, "TEST.SIM", .BUY, 1, 106, 106 * feeRate * 1⟩], [],
           [startingBalance, startingBalance - 106 * feeRate * 1]⟩ := by
      show stepFn stream52 initAcc 50 = _
      unfold stepFn initAcc
      rw [stream52_processBar_flat]
      rfl
    rw [hpos, hrun, List.nil_append]
    rcases terminalClose_spec stream52
        ⟨some ⟨.LONG, 106, 51, 51⟩, startingBalance - 106 * feeRate * 1⟩ with
      ⟨hn, _⟩ | ⟨p, hp, he⟩
    · exact absurd hn (by simp)
    · have hp2 : p = ⟨.LONG, 106, 51, 51⟩ := by
        have h3 : some (⟨.LONG, 106, 51, 51⟩ : Position) = some p := hp
        injection h3 with h4
        exact h4.symm
      subst hp2
      rw [he]
      norm_num [show (closeOf stream52 (stream52.length - 1)).getD 0 = 90 from rfl,
                show tsOf stream52 (stream52.length - 1) = (51 : Int) from rfl, feeRate]
  · have hd : (-16009 / 1000 : ℚ)
        - spec_pnl ⟨51, 51, .LONG, 1, 106, 90, -16009 / 1000⟩ = 106 / 10000 := by
      norm_num [spec_pnl, feeRate]
    rw [hd, abs_of_pos (by norm_num)]
    norm_num [tol]

/-- C2 as amended: every recorded ClosedTrade pnl (mid-stream and
terminal) equals the side-correct price difference times quantity minus
the exit fee only; the entry fee is deducted from the running balance at
entry but is not reflected in the recorded trade pnl. -/
theorem C2_pnl_net_of_exit_fee :
    (∀ (bars : List Bar) (st : SimState) (i : ℕ),
      ∀ t ∈ (processBar bars st i).trades, t.quantity = 1 ∧ t.pnl = code_pnl t)
  ∧ (∀ (bars : List Bar) (st : SimState),
      ∀ t ∈ (terminalClose bars st).1, t.quantity = 1 ∧ t.pnl = code_pnl t) := by
  constructor
  · intro bars st i t ht
    cases hio : indicatorsAt bars i with
    | none =>
      rw [processBar_of_skipped bars st i hio] at ht
      simp at ht
    | some q =>
      obtain ⟨f, s, r, pf, ps⟩ := q
      rw [processBar_of_eval bars st i f s r pf ps hio] at ht
      obtain ⟨_, _, hq, hp, _⟩ := applySignal_trades_spec bars st i _ t ht
      exact ⟨hq, hp⟩
  · intro bars st t ht
    rcases terminalClose_spec bars st with ⟨_, he⟩ | ⟨p, hp, he⟩ <;> rw [he] at ht
    · simp at ht
    · simp only [List.mem_singleton] at ht
      subst ht
      refine ⟨rfl, ?_⟩
      cases hs : p.side <;> simp [code_pnl, hs]

/-- Witness for C2's amended statement, at the short trade a bullish
signal at bar 50 of `stream52` closes at bar 51's open 106. -/
theorem C2_pnl_net_of_exit_fee_witness :
    (⟨40, 51, .SHORT, 1, 100, 106, -30053 / 5000⟩ : ClosedTrade).quantity = 1
  ∧ (⟨40, 51, .SHORT, 1, 100, 106, -30053 / 5000⟩ : ClosedTrade).pnl =
      code_pnl ⟨40, 51, .SHORT, 1, 100, 106, -30053 / 5000⟩ :=
  C2_pnl_net_of_exit_fee.1 stream52 ⟨some ⟨.SHORT, 100, 40, 40⟩, 0⟩ 50 _
    (by rw [stream52_trades_short]; exact List.mem_singleton.mpr rfl)

/-- C1: no Fill or ClosedTrade references a price from a bar at or
before its signal bar.  Conjuncts 1 and 2: every fill and every
mid-stream trade exit produced by the signal at bar `i` carries bar
`i+1`'s open price and timestamp.  Conjunct 3: every recorded trade
(terminal included) entered at the open of some post-warm-up bar `j`,
which the simulator recorded as `entry_idx = signalBar + 1` when it
opened the position.  Conjunct 4: the trades beyond the loop's ledger —
exactly the terminal forced closure — exit at the final bar's close
price and timestamp. -/
theorem C1_one_bar_execution_lag :
    (∀ (bars : List Bar) (st : SimState) (i : ℕ),
      ∀ fl ∈ (processBar bars st i).fills,
        fl.price = openOf bars (i + 1) ∧ fl.timestamp = tsOf bars (i + 1))
  ∧ (∀ (bars : List Bar) (st : SimState) (i : ℕ),
      ∀ t ∈ (processBar bars st i).trades,
        t.exit_price = openOf bars (i + 1) ∧ t.exit_time = tsOf bars (i + 1))
  ∧ (∀ bars : List Bar, ∀ t ∈ (fallback_backtest_csv bars).positions,
      ∃ j, 51 ≤ j ∧ t.entry_price = openOf bars j ∧ t.entry_time = tsOf bars j)
  ∧ (∀ bars : List Bar,
      ∀ t ∈ (fallback_backtest_csv bars).positions.drop (runBars bars).trades.length,
        t.exit_price = (closeOf bars (bars.length - 1)).getD 0
        ∧ t.exit_time = tsOf bars (bars.length - 1)) := by
  refine ⟨?_, ?_, ?_, ?_⟩
  · intro bars st i fl hf
    cases hio : indicatorsAt bars i with
    | none =>
      rw [processBar_of_skipped bars st i hio] at hf
      simp at hf
    | some q =>
      obtain ⟨f, s, r, pf, ps⟩ := q
      rw [processBar_of_eval bars st i f s r pf ps hio] at hf
      exact applySignal_fills_spec bars st i _ fl hf
  · intro bars st i t ht
    cases hio : indicatorsAt bars i with
    | none =>
      rw [processBar_of_skipped bars st i hio] at ht
      simp at ht
    | some q =>
      obtain ⟨f, s, r, pf, ps⟩ := q
      rw [processBar_of_eval bars st i f s r pf ps hio] at ht
      obtain ⟨h1, h2, _⟩ := applySignal_trades_spec bars st i _ t ht
      exact ⟨h1, h2⟩
  · intro bars t ht
    have hpos : (fallback_backtest_csv bars).positions
        = (runBars bars).trades ++ (terminalClose bars (runBars bars).state).1 := rfl
    rw [hpos] at ht
    rcases List.mem_append.mp ht with ht | ht
    · exact (runUpTo_invariant bars _).2 t ht
    · rcases terminalClose_spec bars (runBars bars).state with ⟨_, he⟩ | ⟨p, hp, he⟩ <;>
        rw [he] at ht
      · simp at ht
      · simp only [List.mem_singleton] at ht
        subst ht
        obtain ⟨hj, hjp, hjt⟩ := (runUpTo_invariant bars _).1 p hp
        exact ⟨p.entry_idx, hj, hjp, hjt⟩
  · intro bars t ht
    have hpos : (fallback_backtest_csv bars).positions
        = (runBars bars).trades ++ (terminalClose bars (runBars bars).state).1 := rfl
    rw [hpos, List.drop_left] at ht
    rcases terminalClose_spec bars (runBars bars).state with ⟨_, he⟩ | ⟨p, hp, he⟩ <;>
      rw [he] at ht
    · simp at ht
    · simp only [List.mem_singleton] at ht
      subst ht
      exact ⟨rfl, rfl⟩

/-- Witness for C1: the long-opening fill of the bullish signal at bar 50
of `stream52` is priced at bar 51's open. -/
theorem C1_one_bar_execution_lag_witness :
    (⟨51, "TEST.SIM", .BUY, 1, 106, 106 * feeRate * 1⟩ : Fill).price = openOf stream52 51
  ∧ (⟨51, "TEST.SIM", .BUY, 1, 106, 106 * feeRate * 1⟩ : Fill).timestamp
      = tsOf stream52 51 :=
  C1_one_bar_execution_lag.1 stream52 ⟨none, startingBalance⟩ 50 _
    (by rw [stream52_processBar_flat]; exact List.mem_singleton.mpr rfl)

/-- C6: when the stream ends with a live position, the run appends
exactly one ClosedTrade, exiting at the final bar's close price and
timestamp, while the fills ledger is left exactly as the loop produced
it — no Fill is recorded for the forced closure (unlike mid-stream
closures, which always pair a Fill with the ClosedTrade). -/
theorem C6_forced_terminal_closure :
    ∀ (bars : List Bar) (p : Position), (runBars bars).state.position = some p →
      (fallback_backtest_csv bars).fills = (runBars bars).fills
      ∧ (fallback_backtest_csv bars).positions =
          (runBars bars).trades ++
            [⟨p.entry_timestamp, tsOf bars (bars.length - 1), p.side, 1, p.entry_price,
              (closeOf bars (bars.length - 1)).getD 0,
              (if p.side = .LONG
                 then ((closeOf bars (bars.length - 1)).getD 0 - p.entry_price) * 1
                 else (p.entry_price - (closeOf bars (bars.length - 1)).getD 0) * 1)
                - (closeOf bars (bars.length - 1)).getD 0 * feeRate * 1⟩] := by
  intro bars p hp
  refine ⟨rfl, ?_⟩
  have hpos : (fallback_backtest_csv bars).positions
      = (runBars bars).trades ++ (terminalClose bars (runBars bars).state).1 := rfl
  rw [hpos]
  rcases terminalClose_spec bars (runBars bars).state with ⟨hn, _⟩ | ⟨q, hq, he⟩
  · rw [hp] at hn
    exact Option.noConfusion hn
  · rw [hq] at hp
    injection hp with h2
    subst h2
    rw [he]

/-- Witness for C6: `stream52` ends holding the long opened at bar 51's
open 106, and the forced closure leaves the fills ledger untouched. -/
theorem C6_forced_terminal_closure_witness :
    (fallback_backtest_csv stream52).fills = (runBars stream52).fills :=
  (C6_forced_terminal_closure stream52 ⟨.LONG, 106, 51, 51⟩
    (by
      show (processBar stream52 ⟨none, startingBalance⟩ 50).state.position
          = some ⟨.LONG, 106, 51, 51⟩
      rw [stream52_processBar_flat])).1

/-- C7: a reversal — a bullish cross while short, or a bearish cross
while long — emits exactly two fills, the first closing the old position
and the second opening the new one, both carrying the identical execution
price (bar `i+1`'s open) and the identical timestamp (bar `i+1`'s), plus
exactly one ClosedTrade, and leaves the opposite position open at that
same price. -/
theorem C7_reversal_two_fills :
    ∀ (bars : List Bar) (st : SimState) (i : ℕ) (p : Position), st.position = some p →
      (signalAt bars i = .bullishCross → p.side = .SHORT →
        (processBar bars st i).fills =
          [⟨tsOf bars (i + 1), "TEST.SIM", .BUY, 1, openOf bars (i + 1),
            openOf bars (i + 1) * feeRate * 1⟩,
           ⟨tsOf bars (i + 1), "TEST.SIM", .BUY, 1, openOf bars (i + 1),
            openOf bars (i + 1) * feeRate * 1⟩]
        ∧ (processBar bars st i).trades.length = 1
        ∧ (processBar bars st i).state.position =
            some ⟨.LONG, openOf bars (i + 1), tsOf bars (i + 1), i + 1⟩)
      ∧ (signalAt bars i = .bearishCross → p.side = .LONG →
        (processBar bars st i).fills =
          [⟨tsOf bars (i + 1), "TEST.SIM", .SELL, 1, openOf bars (i + 1),
            openOf bars (i + 1) * feeRate * 1⟩,
           ⟨tsOf bars (i + 1), "TEST.SIM", .SELL, 1, openOf bars (i + 1),
            openOf bars (i + 1) * feeRate * 1⟩]
        ∧ (processBar bars st i).trades.length = 1
        ∧ (processBar bars st i).state.position =
            some ⟨.SHORT, openOf bars (i + 1), tsOf bars (i + 1), i + 1⟩) := by
  intro bars st i p hp
  constructor
  · intro hsig hside
    cases hio : indicatorsAt bars i with
    | none =>
      unfold signalAt at hsig
      rw [hio] at hsig
      exact absurd hsig (by simp)
    | some q =>
      obtain ⟨f, s, r, pf, ps⟩ := q
      have hdet : detect pf ps f s r = .bullishCross := by
        unfold signalAt at hsig
        rw [hio] at hsig
        exact hsig
      rw [processBar_of_eval bars st i f s r pf ps hio, hdet]
      rcases closeShort_spec bars st i with ⟨_, hno⟩ | ⟨q2, hq2, _, he⟩
      · exact absurd hside (hno p hp)
      · rw [hp] at hq2
        injection hq2 with h2
        subst h2
        simp only [applySignal]
        rw [he]
        exact ⟨rfl, rfl, rfl⟩
  · intro hsig hside
    cases hio : indicatorsAt bars i with
    | none =>
      unfold signalAt at hsig
      rw [hio] at hsig
      exact absurd hsig (by simp)
    | some q =>
      obtain ⟨f, s, r, pf, ps⟩ := q
      have hdet : detect pf ps f s r = .bearishCross := by
        unfold signalAt at hsig
        rw [hio] at hsig
        exact hsig
      rw [processBar_of_eval bars st i f s r pf ps hio, hdet]
      rcases closeLong_spec bars st i with ⟨_, hno⟩ | ⟨q2, hq2, _, he⟩
      · exact absurd hside (hno p hp)
      · rw [hp] at hq2
        injection hq2 with h2
        subst h2
        simp only [applySignal]
        rw [he]
        exact ⟨rfl, rfl, rfl⟩

/-- Witness for C7: the bullish cross at bar 50 of `stream52`, hit while
short, produces the two identical BUY fills at bar 51's open. -/
theorem C7_reversal_two_fills_witness :
    (processBar stream52 ⟨some ⟨.SHORT, 100, 40, 40⟩, 0⟩ 50).fills =
      [⟨tsOf stream52 51, "TEST.SIM", .BUY, 1, openOf stream52 51,
        openOf stream52 51 * feeRate * 1⟩,
       ⟨tsOf stream52 51, "TEST.SIM", .BUY, 1, openOf stream52 51,
        openOf stream52 51 * feeRate * 1⟩] :=
  ((C7_reversal_two_fills stream52 ⟨some ⟨.SHORT, 100, 40, 40⟩, 0⟩ 50
      ⟨.SHORT, 100, 40, 40⟩ rfl).1
    (by unfold signalAt; rw [stream52_indicators]; exact stream52_detect_bullish) rfl).1


/-- C8: on 100 synthetic bars with no close variance (fast 20, slow 50,
RSI 14), the pass produces zero signals, zero fills, zero closed trades,
and an equity curve constant at the starting balance. -/
theorem C8_flat_stream_no_activity :
    countSignals flat100 = 0
  ∧ (fallback_backtest_csv flat100).fills = []
  ∧ (fallback_backtest_csv flat100).positions = []
  ∧ (fallback_backtest_csv flat100).equity = List.replicate 50 startingBalance
  ∧ (fallback_backtest_csv flat100).final_balance = startingBalance := by
  have hlen : flat100.length = 100 := by simp [flat100, flatBars]
  have hrun : runBars flat100
      = ⟨⟨none, startingBalance⟩, [], [], List.replicate 50 startingBalance⟩ := by
    show runUpTo (flatBars 100) ((flatBars 100).length - 51) = _
    have hlen2 : (flatBars 100).length = 100 := hlen
    rw [hlen2]
    exact flatBars_run 100 49 (by omega)
  refine ⟨?_, ?_, ?_, ?_, ?_⟩
  · unfold countSignals
    rw [hlen]
    have hnil : ((List.range' 50 (100 - 51)).filter
        (fun i => decide (signalAt flat100 i ≠ .noSignal))) = [] := by
      rw [List.filter_eq_nil_iff]
      intro a ha
      have hmem := List.mem_range'_1.mp ha
      have hsig : signalAt flat100 a = .noSignal := by
        show signalAt (flatBars 100) a = .noSignal
        unfold signalAt
        rw [flatBars_indicators 100 a (by omega) (by omega)]
        exact detect_flat
      simp [hsig]
    rw [hnil]
    rfl
  · show (runBars flat100).fills = []
    rw [hrun]
  · show (runBars flat100).trades ++ (terminalClose flat100 (runBars flat100).state).1 = []
    rw [hrun]
    rfl
  · show (runBars flat100).eq = List.replicate 50 startingBalance
    rw [hrun]
  · show (terminalClose flat100 (runBars flat100).state).2 = startingBalance
    rw [hrun]
    rfl

end Backtest
